import Mathlib

/-!
Verification of the sizing-and-encoding pipeline of `image_to_webp.py`.

The Python source is shallowly embedded:
* Python `int` is modelled as `ℤ`; Python `float` arithmetic in
  `get_target_size` (two divisions, `min`, one multiplication) is modelled
  exactly over `ℚ`; Python's built-in `round` (round half to even) is
  `rndHalfEven`.
* The per-file batch loop of `main` is modelled by explicit state passing
  over an association-list picture of the output directory; the external
  image codec (decode / resize / encode) is abstracted by an oracle
  `proc : String → Option (List Nat)` giving, per input file name, the
  encoded bytes on success or `none` when any step raises.
-/

/-- Python's built-in `round` on an exact value: round half to even. -/
def rndHalfEven (q : ℚ) : ℤ :=
  let f := ⌊q⌋
  let frac := q - (f : ℚ)
  if frac < 1 / 2 then f
  else if 1 / 2 < frac then f + 1
  else if f % 2 = 0 then f else f + 1

/-- `get_target_size` from `image_to_webp.py` (lines 59–89), with the
float arithmetic carried out exactly in `ℚ`. -/
def get_target_size (original_size target_size : ℤ × ℤ)
    (keep_aspect_ratio no_upscale : Bool) : ℤ × ℤ :=
  let (original_w, original_h) := original_size
  let (target_w, target_h) := target_size
  if keep_aspect_ratio then
    if original_w = 0 ∨ original_h = 0 then
      original_size
    else
      let scale_w : ℚ := (target_w : ℚ) / (original_w : ℚ)
      let scale_h : ℚ := (target_h : ℚ) / (original_h : ℚ)
      let scale0 := min scale_w scale_h
      let scale := if no_upscale then min scale0 1 else scale0
      (max 1 (rndHalfEven ((original_w : ℚ) * scale)),
       max 1 (rndHalfEven ((original_h : ℚ) * scale)))
  else
    if no_upscale then
      (min original_w target_w, min original_h target_h)
    else
      (target_w, target_h)

/-- A decoded input image as `process_image` sees it: its pixel size and
the optional embedded ICC profile blob (`img.info.get("icc_profile")`),
kept opaque. -/
structure DecodedImage where
  width : ℤ
  height : ℤ
  icc_profile : Option (List Nat)
deriving DecidableEq

/-- The keyword arguments assembled for `resized.save` in `process_image`
(lines 112–121), i.e. everything the encoder receives besides pixels. -/
structure SaveKwargs where
  size : ℤ × ℤ
  quality : ℤ
  lossless : Bool
  method : ℕ
  icc_profile : Option (List Nat)
deriving DecidableEq

/-- `process_image` (lines 92–121) at the data level: read the profile,
resolve the target size, build the save kwargs, and attach the profile
only when it is not `None`.  Pixel decoding, resampling and actual WebP
encoding are the external codec's work and are not modelled. -/
def process_image (img : DecodedImage) (target_size : ℤ × ℤ) (quality : ℤ)
    (keep_aspect_ratio no_upscale lossless : Bool) : SaveKwargs :=
  let icc := img.icc_profile
  let target := get_target_size (img.width, img.height) target_size
    keep_aspect_ratio no_upscale
  let base : SaveKwargs :=
    { size := target, quality := quality, lossless := lossless, method := 6,
      icc_profile := none }
  match icc with
  | none => base
  | some blob => { base with icc_profile := some blob }

/-! ## Batch runner (`main`, lines 124–173)

File names are plain strings; the output directory is an association list
from file name to written byte contents.  `pyStem` / `pySuffix` follow
CPython `pathlib`: the final extension starts at the last dot, provided
that dot is neither the first nor the last character of the name. -/

/-- `str.lower` restricted to ASCII, enough for the extension strings. -/
def asciiLower (c : Char) : Char :=
  if 'A' ≤ c ∧ c ≤ 'Z' then Char.ofNat (c.toNat + 32) else c

def lowerStr (s : String) : String :=
  String.mk (s.toList.map asciiLower)

/-- Index of the last `'.'` in the name (0 when there is none, which the
`0 < i` guard below then rejects, as in `pathlib`). -/
def lastDot (cs : List Char) : Nat :=
  cs.length - 1 - cs.reverse.indexOf '.'

/-- `pathlib.PurePath.suffix` on a bare file name. -/
def pySuffix (name : String) : String :=
  let cs := name.toList
  let i := lastDot cs
  if 0 < i ∧ i < cs.length - 1 then String.mk (cs.drop i) else ""

/-- `pathlib.PurePath.stem` on a bare file name. -/
def pyStem (name : String) : String :=
  let cs := name.toList
  let i := lastDot cs
  if 0 < i ∧ i < cs.length - 1 then String.mk (cs.take i) else name

/-- Python string `<` (lexicographic on code points). -/
def strLt : List Char → List Char → Bool
  | [], [] => false
  | [], _ :: _ => true
  | _ :: _, [] => false
  | a :: as, b :: bs =>
    if a < b then true else if b < a then false else strLt as bs

def nameLe (a b : String) : Bool :=
  !(strLt b.toList a.toList)

def insertSorted (x : String) : List String → List String
  | [] => [x]
  | y :: ys => if nameLe x y then x :: y :: ys else y :: insertSorted x ys

/-- `sorted` over file names (insertion sort; Python path order restricted
to names inside one directory is plain string order). -/
def sortNames (l : List String) : List String :=
  l.foldr insertSorted []

def SUPPORTED_EXTENSIONS : List String :=
  [".jpg", ".jpeg", ".png"]

/-- One input-directory entry: its name and whether it is a regular file. -/
structure DirEntry where
  name : String
  isFile : Bool
deriving DecidableEq

/-- Lines 133–135: keep regular files with a supported (case-insensitive)
extension, sorted by name. -/
def candidateFiles (entries : List DirEntry) : List String :=
  sortNames ((entries.filter
    (fun e => e.isFile && SUPPORTED_EXTENSIONS.contains (lowerStr (pySuffix e.name)))).map
    (fun e => e.name))

/-- The output directory: written file names paired with their contents. -/
abbrev FS := List (String × List Nat)

def fsExists (fs : FS) (name : String) : Bool :=
  fs.any (fun p => p.1 == name)

/-- Writing replaces an existing entry in place or appends a new one. -/
def fsWrite (fs : FS) (name : String) (bytes : List Nat) : FS :=
  if fsExists fs name then
    fs.map (fun p => if p.1 == name then (p.1, bytes) else p)
  else
    fs ++ [(name, bytes)]

def fsRead (fs : FS) (name : String) : Option (List Nat) :=
  (fs.find? (fun p => p.1 == name)).map (fun p => p.2)

/-- Per-file result, as tallied by the loop counters. -/
inductive Outcome
  | processed
  | skipped
  | failed
deriving DecidableEq, BEq

/-- Observable side effect: `process_image` was invoked on an input file
(decode, transform, encode and write all happen inside that call). -/
inductive Event
  | procCall (inputName : String)
deriving DecidableEq, BEq

/-- Loop body, lines 145–168.  `proc` abstracts `process_image` at the
codec level: `some bytes` when the call succeeds and writes `bytes`,
`none` when any step raises. -/
def runStep (overwrite : Bool) (proc : String → Option (List Nat))
    (fs : FS) (inputName : String) : Outcome × FS × List Event :=
  let output_name := pyStem inputName ++ ".webp"
  if fsExists fs output_name && !overwrite then
    (.skipped, fs, [])
  else
    match proc inputName with
    | some bytes => (.processed, fsWrite fs output_name bytes, [.procCall inputName])
    | none => (.failed, fs, [.procCall inputName])

/-- The `for input_path in files` loop: outcomes in order, final output
directory, and the events performed. -/
def runLoop (overwrite : Bool) (proc : String → Option (List Nat)) :
    FS → List String → List Outcome × FS × List Event
  | fs, [] => ([], fs, [])
  | fs, n :: ns =>
    let r := runStep overwrite proc fs n
    let rest := runLoop overwrite proc r.2.1 ns
    (r.1 :: rest.1, rest.2.1, r.2.2 ++ rest.2.2)

def countOutcome (os : List Outcome) (o : Outcome) : Nat :=
  (os.filter (fun x => x == o)).length

/-- `main`, lines 124–173: exit status, recorded outcomes, and the final
output directory. -/
def main_run (input_dir_exists : Bool) (entries : List DirEntry)
    (proc : String → Option (List Nat)) (overwrite : Bool) (fs0 : FS) :
    Nat × List Outcome × FS :=
  if !input_dir_exists then (1, [], fs0)
  else
    let files := candidateFiles entries
    if files.isEmpty then (0, [], fs0)
    else
      let r := runLoop overwrite proc fs0 files
      (if 0 < countOutcome r.1 .failed then 1 else 0, r.1, r.2.1)

/-- Codec oracle for the same-stem scenario: `a.jpg` encodes to `b1`,
`a.png` encodes to `b2`, everything else fails. -/
def procTwo (b1 b2 : List Nat) : String → Option (List Nat) :=
  fun s => if s = "a.jpg" then some b1 else if s = "a.png" then some b2 else none

/-! ## Theorems -/

theorem rndHalfEven_intCast (n : ℤ) : rndHalfEven (n : ℚ) = n := by
  simp [rndHalfEven]

example : get_target_size (800, 600) (400, 400) true true = (400, 300) := by
  norm_num [get_target_size, rndHalfEven, min_def, max_def]
example : get_target_size (200, 100) (400, 400) true true = (200, 100) := by
  norm_num [get_target_size, rndHalfEven, min_def, max_def]
example : get_target_size (0, 5) (7, 9) false false = (7, 9) := by decide
example : get_target_size (0, 5) (7, 9) true true = (0, 5) := by decide
example : pySuffix "a.jpg" = ".jpg" := by decide
example : pySuffix ".jpg" = "" := by decide
example : pySuffix "a." = "" := by decide
example : pyStem "a.tar.gz" = "a.tar" := by decide
example : sortNames ["b.png", "a.png", "a.jpg"] = ["a.jpg", "a.png", "b.png"] := by
  decide
example : candidateFiles [⟨"b.PNG", true⟩, ⟨"c.txt", true⟩, ⟨"a.jpg", true⟩,
    ⟨"d.png", false⟩] = ["a.jpg", "b.PNG"] := by decide

/-- C1 counterexample: a zero-width original is NOT passed through when
`keep_aspect_ratio` is false — the fixed-target branch returns the target. -/
theorem c1_zero_passthrough_counterexample :
    get_target_size (0, 5) (7, 9) false false ≠ (0, 5) := by decide

/-- C1 (amended): when `keep_aspect_ratio` is true, an original with a zero
width or height is returned unchanged, for every `no_upscale` flag and every
target. -/
theorem c1_zero_passthrough_aspect (ow oh tw th : ℤ) (nu : Bool)
    (h : ow = 0 ∨ oh = 0) :
    get_target_size (ow, oh) (tw, th) true nu = (ow, oh) := by
  simp [get_target_size, h]

/-- C1 witness: the amended theorem at a concrete input. -/
theorem c1_zero_passthrough_aspect_witness :
    get_target_size (0, 5) (7, 9) true false = (0, 5) :=
  c1_zero_passthrough_aspect 0 5 7 9 false (Or.inl rfl)

/-- C2 counterexample: with a zero-width original and aspect lock the
short-circuit returns the zero width, so the result is not ≥ 1. -/
theorem c2_min_one_counterexample :
    ¬ 1 ≤ (get_target_size (0, 5) (10, 10) true false).1 := by decide

/-- C2 (amended): for positive original and target dimensions, both
components of the resolved dimensions are at least 1, for all flags. -/
theorem c2_min_one (ow oh tw th : ℤ) (kar nu : Bool)
    (how : 1 ≤ ow) (hoh : 1 ≤ oh) (htw : 1 ≤ tw) (hth : 1 ≤ th) :
    1 ≤ (get_target_size (ow, oh) (tw, th) kar nu).1 ∧
    1 ≤ (get_target_size (ow, oh) (tw, th) kar nu).2 := by
  cases kar with
  | false =>
    cases nu with
    | false => exact ⟨htw, hth⟩
    | true => exact ⟨le_min how htw, le_min hoh hth⟩
  | true =>
    have hz : ¬(ow = 0 ∨ oh = 0) := by omega
    simp only [get_target_size, if_true, if_neg hz]
    exact ⟨le_max_left _ _, le_max_left _ _⟩

/-- C2 witness: the amended theorem at a concrete input. -/
theorem c2_min_one_witness :
    1 ≤ (get_target_size (3, 4) (10, 10) true true).1 ∧
    1 ≤ (get_target_size (3, 4) (10, 10) true true).2 :=
  c2_min_one 3 4 10 10 true true (by decide) (by decide) (by decide) (by decide)

/-- C4: with aspect lock and upscale suppression, an original that already
fits inside the target box is returned exactly (the scale clamps to 1). -/
theorem c4_aspect_noupscale_identity (ow oh tw th : ℤ)
    (how : 1 ≤ ow) (hoh : 1 ≤ oh) (hw : ow ≤ tw) (hh : oh ≤ th) :
    get_target_size (ow, oh) (tw, th) true true = (ow, oh) := by
  have hz : ¬(ow = 0 ∨ oh = 0) := by omega
  have hwq : (0 : ℚ) < (ow : ℚ) := by exact_mod_cast (by omega : (0 : ℤ) < ow)
  have hhq : (0 : ℚ) < (oh : ℚ) := by exact_mod_cast (by omega : (0 : ℤ) < oh)
  have hsw : (1 : ℚ) ≤ (tw : ℚ) / (ow : ℚ) :=
    (one_le_div hwq).2 (by exact_mod_cast hw)
  have hsh : (1 : ℚ) ≤ (th : ℚ) / (oh : ℚ) :=
    (one_le_div hhq).2 (by exact_mod_cast hh)
  have hmin : min (min ((tw : ℚ) / (ow : ℚ)) ((th : ℚ) / (oh : ℚ))) 1 = 1 :=
    min_eq_right (le_min hsw hsh)
  simp only [get_target_size, if_true, if_neg hz, hmin, mul_one,
    rndHalfEven_intCast]
  rw [max_eq_right how, max_eq_right hoh]

/-- C4 witness: the theorem at a concrete input. -/
theorem c4_aspect_noupscale_identity_witness :
    get_target_size (2, 3) (4, 6) true true = (2, 3) :=
  c4_aspect_noupscale_identity 2 3 4 6 (by decide) (by decide) (by decide)
    (by decide)

/-- C5: with `keep_aspect_ratio = false` and `no_upscale = true`, each axis
is independently clamped to `min original target`. -/
theorem c5_no_aspect_no_upscale (ow oh tw th : ℤ) :
    get_target_size (ow, oh) (tw, th) false true = (min ow tw, min oh th) :=
  rfl

/-- C6: with both flags false the target is returned verbatim. -/
theorem c6_no_aspect_upscale (ow oh tw th : ℤ) :
    get_target_size (ow, oh) (tw, th) false false = (tw, th) :=
  rfl

theorem runLoop_length (ow : Bool) (proc : String → Option (List Nat)) :
    ∀ (fs : FS) (ns : List String), (runLoop ow proc fs ns).1.length = ns.length := by
  intro fs ns
  induction ns generalizing fs with
  | nil => rfl
  | cons n ns ih => simp [runLoop, ih]

/-- C3: the exit status is 0 exactly when the input directory exists and no
file failed (skips and the empty-directory case included); otherwise 1. -/
theorem c3_exit_status (dx : Bool) (entries : List DirEntry)
    (proc : String → Option (List Nat)) (ow : Bool) (fs0 : FS) :
    (main_run dx entries proc ow fs0).1 =
      if dx = true ∧ countOutcome (main_run dx entries proc ow fs0).2.1 .failed = 0
      then 0 else 1 := by
  cases dx with
  | false => simp [main_run]
  | true =>
    simp only [main_run, Bool.not_true, Bool.false_eq_true, if_false, true_and]
    split
    · simp [countOutcome]
    · rcases Nat.eq_zero_or_pos
        (countOutcome (runLoop ow proc fs0 (candidateFiles entries)).1 .failed) with h | h
      · simp [h]
      · simp [h, Nat.pos_iff_ne_zero.mp h]

/-- C7: a per-file failure is recorded as one Failed outcome, leaves the
output directory as it was, and the loop still attempts every remaining
candidate, one outcome per candidate. -/
theorem c7_failure_isolated (ow : Bool) (proc : String → Option (List Nat))
    (fs : FS) (n : String) (ns : List String)
    (hfail : proc n = none)
    (hnoskip : (fsExists fs (pyStem n ++ ".webp") && !ow) = false) :
    (runLoop ow proc fs (n :: ns)).1 = .failed :: (runLoop ow proc fs ns).1 ∧
    (runLoop ow proc fs (n :: ns)).2.1 = (runLoop ow proc fs ns).2.1 ∧
    ∀ (fs2 : FS) (ms : List String),
      (runLoop ow proc fs2 ms).1.length = ms.length := by
  have hstep : runStep ow proc fs n = (.failed, fs, [.procCall n]) := by
    simp [runStep, hnoskip, hfail]
  exact ⟨by simp [runLoop, hstep], by simp [runLoop, hstep],
    runLoop_length ow proc⟩

/-- C7 witness: the theorem at a concrete input. -/
theorem c7_failure_isolated_witness :
    (runLoop true (fun _ => none) [] ["x.jpg", "y.png"]).1 =
        .failed :: (runLoop true (fun _ => none) [] ["y.png"]).1 ∧
    (runLoop true (fun _ => none) [] ["x.jpg", "y.png"]).2.1 =
        (runLoop true (fun _ => none) [] ["y.png"]).2.1 ∧
    ∀ (fs2 : FS) (ms : List String),
      (runLoop true (fun _ => none) fs2 ms).1.length = ms.length :=
  c7_failure_isolated true (fun _ => none) [] "x.jpg" ["y.png"] rfl (by decide)

theorem fsExists_append_left (fs l : FS) (name : String)
    (h : fsExists fs name = true) : fsExists (fs ++ l) name = true := by
  simp only [fsExists, List.any_append, Bool.or_eq_true]
  exact Or.inl h

theorem fsRead_append_left (fs l : FS) (name : String)
    (h : fsExists fs name = true) : fsRead (fs ++ l) name = fsRead fs name := by
  have hs : (fs.find? (fun p => p.1 == name)).isSome := by
    rw [List.find?_isSome]
    simpa [fsExists, List.any_eq_true] using h
  obtain ⟨v, hv⟩ := Option.isSome_iff_exists.mp hs
  simp [fsRead, List.find?_append, hv]

/-- With `overwrite = false`, the loop never rewrites a file that already
exists in the output directory. -/
theorem runLoop_preserves_existing (proc : String → Option (List Nat)) :
    ∀ (ns : List String) (fs : FS) (name : String),
      fsExists fs name = true →
      fsRead (runLoop false proc fs ns).2.1 name = fsRead fs name := by
  intro ns
  induction ns with
  | nil => intro fs name _; rfl
  | cons n ns ih =>
    intro fs name h
    by_cases hex : fsExists fs (pyStem n ++ ".webp") = true
    · have hstep : runStep false proc fs n = (.skipped, fs, []) := by
        simp [runStep, hex]
      simp [runLoop, hstep, ih fs name h]
    · rw [Bool.not_eq_true] at hex
      cases hp : proc n with
      | none =>
        have hstep : runStep false proc fs n = (.failed, fs, [.procCall n]) := by
          simp [runStep, hex, hp]
        simp [runLoop, hstep, ih fs name h]
      | some bytes =>
        have hstep : runStep false proc fs n =
            (.processed, fs ++ [(pyStem n ++ ".webp", bytes)], [.procCall n]) := by
          simp [runStep, fsWrite, hex, hp]
        have h2 : fsExists (fs ++ [(pyStem n ++ ".webp", bytes)]) name = true :=
          fsExists_append_left _ _ _ h
        simp [runLoop, hstep, ih _ name h2, fsRead_append_left _ _ _ h]

/-- C8: when the derived output file already exists and overwrite is off,
the candidate is recorded Skipped, no decode/transform event happens for
it, the existing output contents survive the entire run, and the loop goes
on to the remaining candidates, one outcome each. -/
theorem c8_skip_existing (proc : String → Option (List Nat)) (fs : FS)
    (n : String) (ns : List String)
    (hex : fsExists fs (pyStem n ++ ".webp") = true) :
    (runLoop false proc fs (n :: ns)).1 = .skipped :: (runLoop false proc fs ns).1 ∧
    (runLoop false proc fs (n :: ns)).2.2 = (runLoop false proc fs ns).2.2 ∧
    fsRead (runLoop false proc fs (n :: ns)).2.1 (pyStem n ++ ".webp") =
      fsRead fs (pyStem n ++ ".webp") ∧
    (runLoop false proc fs (n :: ns)).1.length = ns.length + 1 := by
  have hstep : runStep false proc fs n = (.skipped, fs, []) := by
    simp [runStep, hex]
  refine ⟨by simp [runLoop, hstep], by simp [runLoop, hstep], ?_,
    by simp [runLoop, hstep, runLoop_length]⟩
  have hkeep := runLoop_preserves_existing proc ns fs (pyStem n ++ ".webp") hex
  simp [runLoop, hstep, hkeep]

/-- C8 witness: the theorem at a concrete input. -/
theorem c8_skip_existing_witness :
    (runLoop false (fun _ => none) [("a.webp", [7])] ["a.jpg", "b.png"]).1 =
        .skipped :: (runLoop false (fun _ => none) [("a.webp", [7])] ["b.png"]).1 ∧
    (runLoop false (fun _ => none) [("a.webp", [7])] ["a.jpg", "b.png"]).2.2 =
        (runLoop false (fun _ => none) [("a.webp", [7])] ["b.png"]).2.2 ∧
    fsRead (runLoop false (fun _ => none) [("a.webp", [7])] ["a.jpg", "b.png"]).2.1
        (pyStem "a.jpg" ++ ".webp") = fsRead [("a.webp", [7])] (pyStem "a.jpg" ++ ".webp") ∧
    (runLoop false (fun _ => none) [("a.webp", [7])] ["a.jpg", "b.png"]).1.length = 2 :=
  c8_skip_existing (fun _ => none) [("a.webp", [7])] "a.jpg" ["b.png"] (by decide)

/-- C9: the save kwargs carry an ICC profile exactly when the decoded input
carried one, and then it is the identical blob. -/
theorem c9_icc_passthrough (img : DecodedImage) (ts : ℤ × ℤ) (q : ℤ)
    (kar nu ll : Bool) :
    ((process_image img ts q kar nu ll).icc_profile.isSome ↔
      img.icc_profile.isSome) ∧
    (∀ blob, img.icc_profile = some blob →
      (process_image img ts q kar nu ll).icc_profile = some blob) := by
  cases h : img.icc_profile <;> simp [process_image, h]

/-- C9 witness: the theorem at a concrete input. -/
theorem c9_icc_passthrough_witness :
    (process_image ⟨3, 4, some [1, 2]⟩ (5, 5) 80 true false false).icc_profile =
      some [1, 2] :=
  (c9_icc_passthrough ⟨3, 4, some [1, 2]⟩ (5, 5) 80 true false false).2 [1, 2] rfl

/-- C10: `a.jpg` and `a.png` both derive `a.webp`; in one run without
overwrite the alphabetically earlier `a.jpg` is processed and `a.png` is
then skipped, leaving `a.jpg`'s bytes; with overwrite both are processed
and `a.png`'s bytes silently replace `a.jpg`'s. -/
theorem c10_same_stem_collision (b1 b2 : List Nat) :
    main_run true [⟨"a.png", true⟩, ⟨"a.jpg", true⟩] (procTwo b1 b2) false [] =
      (0, [.processed, .skipped], [("a.webp", b1)]) ∧
    main_run true [⟨"a.png", true⟩, ⟨"a.jpg", true⟩] (procTwo b1 b2) true [] =
      (0, [.processed, .processed], [("a.webp", b2)]) :=
  ⟨rfl, rfl⟩
